import Mathlib

/-! # resume-server: a shallow embedding of `resume.go`

The Go source is one file.  It builds a `Resume` from an uploaded file, streams
the file to a bucket, and keeps one document per submission in a collection.

Conventions of the embedding

* a Go `string` is a Lean `String`; functions that walk a string index by index
  work on its character list (`'/'`, `'.'` and `'%'` are single bytes in UTF-8, so
  the byte loop and the character loop stop at the same places);
* a Go `error` is its message;
* a method with a pointer receiver takes the pointed-to value and returns the
  value afterwards (explicit state passing);
* the package-level handles `GCSClient`, `gcsBucket` and `ResumeCollection` are
  declared outside `resume.go`; what they hold is an argument of every function
  that reads them;
* what the outside world answers to a call (entropy, the network, the server
  clock) is an argument as well.
-/

namespace ResumeServer

/-- A Go `error`, identified by its message. -/
abbrev Error := String

/-! ## `path.Ext` -/

/-- The loop of `path.Ext`: `for i := len(path)-1; i >= 0 && path[i] != '/'; i--`,
returning `path[i:]` at the first `'.'` met.  The second argument is `i + 1`. -/
def extLoop (path : List Char) : Nat → List Char
  | 0 => []
  | i + 1 =>
    match path[i]? with
    | none => []
    | some c =>
      if c = '/' then []
      else if c = '.' then path.drop i
      else extLoop path i

/-- Go's `path.Ext`. -/
def Ext (path : String) : String :=
  ⟨extLoop path.data path.data.length⟩

/-! ## `uuid` (github.com/satori/go.uuid) -/

/-- A `uuid.UUID`, an array of 16 bytes. -/
structure UUID where
  bytes : List Nat
  size : bytes.length = 16

/-- The digits of `encoding/hex`. -/
def hextable : List Char :=
  ['0', '1', '2', '3', '4', '5', '6', '7', '8', '9', 'a', 'b', 'c', 'd', 'e', 'f']

/-- Go's `hex.Encode`: two digits per byte, high nibble first. -/
def hexEncode : List Nat → List Char
  | [] => []
  | v :: rest =>
    hextable.getD ((v % 256) / 16) '0' :: hextable.getD (v % 16) '0' :: hexEncode rest

/-- The slice `u[lo:hi]`. -/
def UUID.slice (u : UUID) (lo hi : Nat) : List Nat :=
  (u.bytes.drop lo).take (hi - lo)

/-- The canonical text of a UUID, `xxxxxxxx-xxxx-xxxx-xxxx-xxxxxxxxxxxx`. -/
def UUID.String (u : UUID) : String :=
  ⟨hexEncode (u.slice 0 4) ++ '-' :: hexEncode (u.slice 4 6) ++ '-' ::
    hexEncode (u.slice 6 8) ++ '-' :: hexEncode (u.slice 8 10) ++ '-' ::
    hexEncode (u.slice 10 16)⟩

/-- Go's `u.SetVersion(v)`: `u[6] = (u[6] & 0x0f) | (v << 4)`. -/
def UUID.SetVersion (u : UUID) (v : Nat) : UUID :=
  ⟨u.bytes.set 6 ((u.bytes.getD 6 0 % 16) + (v * 16) % 256), by simp [u.size]⟩

/-- Go's `u.SetVariant(VariantRFC4122)`: `u[8] = (u[8] & 0x3f) | 0x80`. -/
def UUID.SetVariant (u : UUID) : UUID :=
  ⟨u.bytes.set 8 ((u.bytes.getD 8 0 % 64) + 128), by simp [u.size]⟩

/-- Go's `uuid.NewV4`.  The argument is what reading 16 bytes from the entropy
source gave: the bytes, or the error of the read. -/
def NewV4 (entropy : Except Error UUID) : Except Error UUID :=
  match entropy with
  | .error err => .error err
  | .ok u => .ok (u.SetVersion 4).SetVariant

/-! ## `Resume` -/

/-- A `multipart.File`, by the bytes it yields. -/
abbrev File := List Nat

/-- A `multipart.FileHeader`; only `Filename` is read. -/
structure FileHeader where
  Filename : String
deriving DecidableEq

/-- The struct `Resume`.  The interface value `file` may be nil. -/
structure Resume where
  UserID : String
  Name : String
  Email : String
  URL : String
  file : Option File
deriving DecidableEq

/-- The function `NewResume`. -/
def NewResume (entropy : Except Error UUID) (userID : String) (email : String)
    (file : Option File) (header : FileHeader) : Except Error Resume :=
  match NewV4 entropy with
  | .error err => .error err
  | .ok uuid =>
    let filename := uuid.String ++ Ext header.Filename
    .ok { UserID := userID, Name := filename, Email := email, URL := "", file := file }

/-! ## `fmt.Sprintf` on string operands -/

/-- What `fmt` appends for operands the format did not use:
`%!(EXTRA string=a, string=b)`. -/
def extraOperands : List String → List Char
  | [] => []
  | a :: args =>
    "%!(EXTRA string=".data ++ a.data ++
      args.flatMap (fun b => ", string=".data ++ b.data) ++ [')']

/-- The loop of `fmt`'s `doPrintf`, for operands that are all strings.  Modelled
directives: `%s` and `%v` (the operand as it is), `%%`, a verb with no operand
left (`%!s(MISSING)`), a trailing `%` (`%!(NOVERB)`) and a verb that strings do
not have (`%!d(string=...)`).  Flags, widths and the verbs `q`, `x`, `X` are not
modelled; `GCSPubURL` and the log format use none of them. -/
def doPrintf : List Char → List String → List Char
  | [], args => extraOperands args
  | c :: rest, args =>
    if c = '%' then
      match rest, args with
      | [], args => "%!(NOVERB)".data ++ extraOperands args
      | verb :: rest, args =>
        if verb = '%' then '%' :: doPrintf rest args
        else
          match args with
          | [] => '%' :: '!' :: verb :: "(MISSING)".data ++ doPrintf rest []
          | a :: args =>
            (if verb = 's' ∨ verb = 'v' then a.data
              else '%' :: '!' :: verb :: "(string=".data ++ a.data ++ [')']) ++
              doPrintf rest args
    else c :: doPrintf rest args

/-- Go's `fmt.Sprintf`, for string operands. -/
def Sprintf (format : String) (args : List String) : String :=
  ⟨doPrintf format.data args⟩

/-- The constant `GCSPubURL`. -/
def GCSPubURL : String := "https://storage.googleapis.com/%s/%s"

/-- The constant `CredFileName`. -/
def CredFileName : String := "auburn-hacks-gcs.json"

/-! ## `Upload` -/

/-- How a call ends: it returns to its caller (with an error or with nil), the
process exits with a status, or the goroutine panics. -/
inductive Outcome where
  | returned (err : Option Error)
  | exited (status : Nat)
  | panicked
deriving DecidableEq

/-- An object of the bucket store, as left by a writer that was closed without
error. -/
structure GCSObject where
  bucket : String
  name : String
  data : File
  allUsersReader : Bool
deriving DecidableEq

/-- What the network answers during one upload: the error of `io.Copy` and the
error of `wc.Close()`, `none` where the step goes through.  A write cut off by
the five-second deadline shows up as one of the two errors. -/
structure WriterFaults where
  copyErr : Option Error
  closeErr : Option Error
deriving DecidableEq

/-- The state an `Upload` call leaves: the receiver, the bucket store, the lines
logged at severity FATAL, and how the call ended. -/
structure UploadResult where
  resume : Resume
  objects : List GCSObject
  fatalLog : List String
  outcome : Outcome
deriving DecidableEq

/-- The library call `glog.Fatalf`: it writes the formatted line to the FATAL log
and then calls `os.Exit(255)`; it does not return. -/
def Fatalf (r : Resume) (objects : List GCSObject) (format : String)
    (args : List String) : UploadResult :=
  { resume := r, objects := objects, fatalLog := [Sprintf format args],
    outcome := .exited 255 }

/-- The method `(*Resume).Upload`.  `gcsBucket` is the value of the flag
`*gcsBucket`, `objects` the bucket store behind an initialised `GCSClient`.
`io.Copy` from a nil `r.file` calls `Read` on a nil interface and panics. -/
def Resume.Upload (gcsBucket : String) (net : WriterFaults) (objects : List GCSObject)
    (r : Resume) : UploadResult :=
  match r.file with
  | none => { resume := r, objects := objects, fatalLog := [], outcome := .panicked }
  | some data =>
    match net.copyErr with
    | some err => Fatalf r objects "Error: %s" [err]
    | none =>
      match net.closeErr with
      | some err => Fatalf r objects "Error: %s" [err]
      | none =>
        { resume := { r with URL := Sprintf GCSPubURL [gcsBucket, r.Name] },
          objects := objects ++
            [{ bucket := gcsBucket, name := r.Name, data := data, allUsersReader := true }],
          fatalLog := [],
          outcome := .returned none }

/-! ## The resume collection

`ResumeCollection` is a handle on one collection of a document store.  The
collection is the ordered list of its documents, in insertion order.  Each
document is a resume record: the four string fields that `bson.Marshal` writes
for a `Resume`, and the date `lastModified` once an update has stamped it.  The
`_id` that the driver adds on insertion is not a field of the record; a
document is told apart by its place in the list.  These are the documents that
`Save` and `Update` produce; documents of another shape, written by another
program, are not part of the model.

Every driver call takes a `fault`: the error the driver reports when the call
does not reach the server (`none` when the call goes through).  A call that
meets a fault leaves the collection as it was. -/

/-- A document of the collection. -/
structure Document where
  userid : String
  name : String
  email : String
  url : String
  lastModified : Option Nat
deriving DecidableEq

/-- The contents of `ResumeCollection`. -/
abbrev Collection := List Document

/-- The string stored under a key, if the record has a string there. -/
def Document.field (d : Document) (key : String) : Option String :=
  if key = "userid" then some d.userid
  else if key = "name" then some d.name
  else if key = "email" then some d.email
  else if key = "url" then some d.url
  else none

/-- Stores a string under one of the record's string keys. -/
def Document.setString (d : Document) (key : String) (value : String) : Document :=
  if key = "userid" then { d with userid := value }
  else if key = "name" then { d with name := value }
  else if key = "email" then { d with email := value }
  else if key = "url" then { d with url := value }
  else d

/-- Stores a date under the record's date key. -/
def Document.setDate (d : Document) (key : String) (now : Nat) : Document :=
  if key = "lastModified" then { d with lastModified := some now } else d

namespace bson

/-- The elements the source builds with `bson.EC`. -/
inductive Element where
  | String (key : String) (value : String)
  | Boolean (key : String) (value : Bool)
  | SubDocumentFromElements (key : String) (elems : List Element)

/-- The call `bson.NewDocument(elems...)`. -/
def NewDocument (elems : List Element) : List Element := elems

/-- The call `bson.Marshal(r)` for a `*Resume`.  The struct has no `bson` tags, so
every exported field goes under its lower-cased name and the unexported `file`
is skipped. -/
def Marshal (r : Resume) : Except Error Document :=
  .ok { userid := r.UserID, name := r.Name, email := r.Email, url := r.URL,
        lastModified := none }

/-- The call `bson.Unmarshal(doc, &r)`: the fields the document has are written
into `r`; `lastModified` has no field to go to, and `file` is left as it was. -/
def Unmarshal (doc : Document) (r : Resume) : Except Error Resume :=
  .ok { r with UserID := doc.userid, Name := doc.name, Email := doc.email, URL := doc.url }

end bson

/-- The error `mongo.ErrNoDocuments`. -/
def ErrNoDocuments : Error := "mongo: no documents in result"

/-- One condition of a filter: the document holds that string under that key. -/
def matchesElement (d : Document) : bson.Element → Bool
  | .String key value => d.field key == some value
  | _ => false

/-- A document satisfies a filter when it satisfies each of its elements. -/
def matchesFilter (filter : List bson.Element) (d : Document) : Bool :=
  filter.all (matchesElement d)

/-- The operator `$set`. -/
def applySet (d : Document) : List bson.Element → Document
  | [] => d
  | .String key value :: rest => applySet (d.setString key value) rest
  | _ :: rest => applySet d rest

/-- The operator `$currentDate`, at server time `now`. -/
def applyCurrentDate (now : Nat) (d : Document) : List bson.Element → Document
  | [] => d
  | .Boolean key true :: rest => applyCurrentDate now (d.setDate key now) rest
  | _ :: rest => applyCurrentDate now d rest

/-- An update document applied to one document. -/
def applyUpdate (now : Nat) (d : Document) : List bson.Element → Document
  | [] => d
  | .SubDocumentFromElements op elems :: rest =>
    if op = "$set" then applyUpdate now (applySet d elems) rest
    else if op = "$currentDate" then applyUpdate now (applyCurrentDate now d elems) rest
    else applyUpdate now d rest
  | _ :: rest => applyUpdate now d rest

/-- The first document that satisfies the filter is replaced by its update. -/
def updateFirst (filter update : List bson.Element) (now : Nat) : Collection → Collection
  | [] => []
  | d :: rest =>
    if matchesFilter filter d then applyUpdate now d update :: rest
    else d :: updateFirst filter update now rest

/-- The value `FindOne` returns. -/
structure DocumentResult where
  err : Option Error
  doc : Option Document

/-- The driver call `FindOne`.  `fault` is the error the driver reports when the
call does not reach the server, `none` when the call goes through. -/
def FindOne (fault : Option Error) (coll : Collection) (filter : List bson.Element) :
    DocumentResult :=
  match fault with
  | some err => { err := some err, doc := none }
  | none => { err := none, doc := coll.find? (matchesFilter filter) }

/-- The driver call `(*DocumentResult).Decode`. -/
def DocumentResult.Decode (res : DocumentResult) (r : Resume) : Except Error Resume :=
  match res.err with
  | some err => .error err
  | none =>
    match res.doc with
    | none => .error ErrNoDocuments
    | some doc => bson.Unmarshal doc r

/-- The driver call `InsertOne`: the document goes to the end of the collection. -/
def InsertOne (fault : Option Error) (coll : Collection) (doc : Document) :
    Collection × Option Error :=
  match fault with
  | some err => (coll, some err)
  | none => (coll ++ [doc], none)

/-- The driver call `UpdateOne`, at server time `now`. -/
def UpdateOne (fault : Option Error) (now : Nat) (coll : Collection)
    (filter update : List bson.Element) : Collection × Option Error :=
  match fault with
  | some err => (coll, some err)
  | none => (updateFirst filter update now coll, none)

/-- The driver call `Find`; a nil filter selects every document.  The cursor is the
list of documents still to come. -/
def Find (fault : Option Error) (coll : Collection) (filter : Option (List bson.Element)) :
    Except Error (List Document) :=
  match fault with
  | some err => .error err
  | none =>
    match filter with
    | none => .ok coll
    | some f => .ok (coll.filter (matchesFilter f))

/-- The cursor call `DecodeBytes`, on the document the cursor stands on. -/
def DecodeBytes (doc : Document) : Except Error Document := .ok doc

/-- The zero value `var r Resume`. -/
def zeroResume : Resume :=
  { UserID := "", Name := "", Email := "", URL := "", file := none }

/-- The function `NewResumeWithUserID`. -/
def NewResumeWithUserID (fault : Option Error) (coll : Collection) (userID : String) :
    Except Error Resume :=
  let r := zeroResume
  let idFilter := bson.NewDocument [.String "userid" userID]
  match (FindOne fault coll idFilter).Decode r with
  | .error err => .error err
  | .ok r => .ok r

/-- The function `NewResumeWithEmail`. -/
def NewResumeWithEmail (fault : Option Error) (coll : Collection) (email : String) :
    Except Error Resume :=
  let r := zeroResume
  let idFilter := bson.NewDocument [.String "email" email]
  match (FindOne fault coll idFilter).Decode r with
  | .error err => .error err
  | .ok r => .ok r

/-- The method `(*Resume).Save`: the collection afterwards and the error returned. -/
def Resume.Save (fault : Option Error) (coll : Collection) (r : Resume) :
    Collection × Option Error :=
  match bson.Marshal r with
  | .error err => (coll, some err)
  | .ok doc =>
    match InsertOne fault coll doc with
    | (coll, some err) => (coll, some err)
    | (coll, none) => (coll, none)

/-- The method `(*Resume).Update`: the collection afterwards and the error returned. -/
def Resume.Update (fault : Option Error) (now : Nat) (coll : Collection) (r : Resume) :
    Collection × Option Error :=
  let filter := bson.NewDocument [.String "userid" r.UserID]
  let updateDoc := bson.NewDocument
    [.SubDocumentFromElements "$set" [.String "url" r.URL],
     .SubDocumentFromElements "$currentDate" [.Boolean "lastModified" true]]
  match UpdateOne fault now coll filter updateDoc with
  | (coll, some err) => (coll, some err)
  | (coll, none) => (coll, none)

/-- The loop of `getAllResumes`: `r` is declared once, outside the loop, and every
document is unmarshalled into it before it is appended. -/
def collectResumes : List Document → List Resume → Resume → Except Error (List Resume)
  | [], resumes, _ => .ok resumes
  | doc :: cur, resumes, r =>
    match DecodeBytes doc with
    | .error err => .error err
    | .ok br =>
      match bson.Unmarshal br r with
      | .error err => .error err
      | .ok r => collectResumes cur (resumes ++ [r]) r

/-- The function `getAllResumes`. -/
def getAllResumes (fault : Option Error) (coll : Collection) : Except Error (List Resume) :=
  match Find fault coll none with
  | .error err => .error err
  | .ok cur => collectResumes cur [] zeroResume

/-! ## `ResumeInsight` -/

/-- The struct `ResumeInsight`. -/
structure ResumeInsight where
  UserID : String
  Name : String
  URL : String
deriving DecidableEq

/-- The function `NewResumeInsightFromResume`: the insight, and the `Resume` behind
the pointer after the call. -/
def NewResumeInsightFromResume (r : Resume) : ResumeInsight × Resume :=
  let ri : ResumeInsight := { UserID := "", Name := "", URL := "" }
  let ri := { ri with Name := r.Name }
  let ri := { ri with URL := r.URL }
  let ri := { ri with UserID := r.UserID }
  (ri, r)

/-- A struct field as `encoding/json` sees it: the key of its tag, whether the tag
says `omitempty`, and the string the field holds. -/
structure JSONField where
  key : String
  omitempty : Bool
  value : String
deriving DecidableEq

/-- The fields of `ResumeInsight` with their `json` tags, in declaration order. -/
def ResumeInsight.jsonFields (ri : ResumeInsight) : List JSONField :=
  [{ key := "user_id", omitempty := true, value := ri.UserID },
   { key := "name", omitempty := true, value := ri.Name },
   { key := "url", omitempty := true, value := ri.URL }]

/-- A JSON object whose members are strings: the keys with their values, in order. -/
abbrev JSONObject := List (String × String)

/-- The struct encoder of `encoding/json`: a field tagged `omitempty` is left out
when its string has length zero. -/
def encodeStruct : List JSONField → JSONObject
  | [] => []
  | f :: rest =>
    if f.omitempty && f.value.length == 0 then encodeStruct rest
    else (f.key, f.value) :: encodeStruct rest

/-- The object `json.Marshal` writes for a `ResumeInsight`. -/
def ResumeInsight.MarshalJSON (ri : ResumeInsight) : JSONObject :=
  encodeStruct ri.jsonFields

/-- The text of a JSON object.  `quote` is the encoder's string quoting. -/
def JSONObject.text (quote : String → String) (o : JSONObject) : String :=
  "\x7b" ++ ",".intercalate (o.map (fun m => quote m.1 ++ ":" ++ quote m.2)) ++ "\x7d"

/-! ## Callers

Sequences of calls, and the views of a record that the statements below use. -/

/-- The `Resume` a document decodes to. -/
def Document.toResume (d : Document) : Resume :=
  { UserID := d.userid, Name := d.name, Email := d.email, URL := d.url, file := none }

/-- The persisted part of a `Resume`: `UserID`, `Name`, `Email`, `URL`. -/
def Resume.stored (r : Resume) : String × String × String × String :=
  (r.UserID, r.Name, r.Email, r.URL)

/-- A caller that invokes `Upload` on the same `Resume` once per entry of `nets`,
for as long as the process is alive: the `Resume` at the end and how each call
that was made ended. -/
def uploadAll (gcsBucket : String) :
    List WriterFaults → List GCSObject → Resume → Resume × List Outcome
  | [], _, r => (r, [])
  | net :: rest, objects, r =>
    let res := Resume.Upload gcsBucket net objects r
    match res.outcome with
    | .returned err =>
      let next := uploadAll gcsBucket rest res.objects res.resume
      (next.1, .returned err :: next.2)
    | .exited status => (res.resume, [.exited status])
    | .panicked => (res.resume, [.panicked])

/-- A caller that invokes `Save` once per entry of `calls`, each with the fault the
driver meets on that call: the collection at the end and the resumes whose
`Save` returned nil, in call order. -/
def saveAll : List (Option Error × Resume) → Collection → Collection × List Resume
  | [], coll => (coll, [])
  | (fault, r) :: rest, coll =>
    let res := Resume.Save fault coll r
    let next := saveAll rest res.1
    match res.2 with
    | none => (next.1, r :: next.2)
    | some _ => next

/-! ## Sample data -/

/-- A UUID used to instantiate the theorems. -/
def sampleUUID : UUID :=
  ⟨[0x6b, 0xa7, 0xb8, 0x10, 0x9d, 0xad, 0x11, 0xd1, 0x80, 0xb4, 0x00, 0xc0, 0x4f, 0xd4, 0x30, 0xc8],
    rfl⟩

/-- A resume used to instantiate the theorems. -/
def sampleResume : Resume :=
  { UserID := "u1", Name := "6ba7b810-9dad-41d1-80b4-00c04fd430c8.pdf",
    Email := "u1@auburn.edu", URL := "", file := some [37, 80, 68, 70] }

/-- A collection in which two documents share a user id. -/
def sampleCollection : Collection :=
  [{ userid := "u0", name := "a.pdf", email := "u0@auburn.edu", url := "", lastModified := none },
   { userid := "u1", name := "b.pdf", email := "u1@auburn.edu", url := "", lastModified := none },
   { userid := "u1", name := "c.pdf", email := "v1@auburn.edu", url := "http://x/c",
     lastModified := some 3 }]

/-! ## Lemmas and theorems -/

/-- Characters that are neither `'/'` nor `'.'` are stepped over by the loop. -/
theorem extLoop_skip (pre suf : List Char) (hs : ∀ c ∈ suf, c ≠ '/' ∧ c ≠ '.') :
    ∀ k, k ≤ suf.length →
      extLoop (pre ++ suf) (pre.length + k) = extLoop (pre ++ suf) pre.length := by
  intro k
  induction k with
  | zero => intro _; rfl
  | succ k ih =>
    intro hk
    have hlt : k < suf.length := hk
    have hget : (pre ++ suf)[pre.length + k]? = some suf[k] := by
      rw [List.getElem?_append_right (by omega)]
      simp [hlt]
    have hmem : suf[k] ∈ suf := List.getElem_mem hlt
    have hc := hs _ hmem
    show extLoop (pre ++ suf) (pre.length + k + 1) = _
    rw [extLoop, hget]
    simp only [hc.1, hc.2, if_false]
    exact ih (by omega)

theorem extLoop_dot (pre suf : List Char) (hs : ∀ c ∈ suf, c ≠ '/' ∧ c ≠ '.') :
    extLoop (pre ++ '.' :: suf) (pre ++ '.' :: suf).length = '.' :: suf := by
  have h := extLoop_skip (pre ++ ['.']) suf hs suf.length le_rfl
  simp only [List.append_assoc, List.singleton_append, List.length_append,
    List.length_singleton] at h
  have hlen : (pre ++ '.' :: suf).length = pre.length + 1 + suf.length := by
    simp; omega
  have hget : (pre ++ '.' :: suf)[pre.length]? = some '.' := by
    rw [List.getElem?_append_right (le_refl _)]; simp
  rw [hlen, h, extLoop, hget]
  simp

theorem extLoop_slash (pre suf : List Char) (hs : ∀ c ∈ suf, c ≠ '/' ∧ c ≠ '.') :
    extLoop (pre ++ '/' :: suf) (pre ++ '/' :: suf).length = [] := by
  have h := extLoop_skip (pre ++ ['/']) suf hs suf.length le_rfl
  simp only [List.append_assoc, List.singleton_append, List.length_append,
    List.length_singleton] at h
  have hlen : (pre ++ '/' :: suf).length = pre.length + 1 + suf.length := by
    simp; omega
  have hget : (pre ++ '/' :: suf)[pre.length]? = some '/' := by
    rw [List.getElem?_append_right (le_refl _)]; simp
  rw [hlen, h, extLoop, hget]
  simp

theorem extLoop_plain (suf : List Char) (hs : ∀ c ∈ suf, c ≠ '/' ∧ c ≠ '.') :
    extLoop suf suf.length = [] := by
  have h := extLoop_skip [] suf hs suf.length le_rfl
  simp only [List.nil_append, List.length_nil, Nat.zero_add] at h
  rw [h]; rfl

theorem hexEncode_length (l : List Nat) : (hexEncode l).length = 2 * l.length := by
  induction l with
  | nil => rfl
  | cons v rest ih => simp [hexEncode, ih]; omega

theorem UUID.String_length (u : UUID) : u.String.length = 36 := by
  have := u.size
  simp [UUID.String, String.length, UUID.slice, hexEncode_length, List.length_take, List.length_drop]
  omega

/-- C1: whenever identifier generation succeeds with `uuid`, `NewResume` returns a
`Resume` whose `Name` is `uuid.String() ++ path.Ext(header.Filename)`; that name
is not empty and ends with the extension; and `path.Ext` is the suffix from the
last `'.'` of the final slash-separated element, empty when that element has no
`'.'`. -/
theorem NewResume_name_is_uuid_with_extension
    (entropy : Except Error UUID) (uuid : UUID) (userID email : String)
    (file : Option File) (header : FileHeader)
    (hgen : NewV4 entropy = .ok uuid) :
    ∃ r, NewResume entropy userID email file header = .ok r ∧
      r.Name = uuid.String ++ Ext header.Filename ∧
      r.Name ≠ "" ∧
      (Ext header.Filename).data <:+ r.Name.data ∧
      (∀ pre suf, header.Filename.data = pre ++ '.' :: suf → '.' ∉ suf → '/' ∉ suf →
        Ext header.Filename = ⟨'.' :: suf⟩) ∧
      (∀ elem, (header.Filename.data = elem ∨ ∃ pre, header.Filename.data = pre ++ '/' :: elem) →
        '/' ∉ elem → '.' ∉ elem → Ext header.Filename = "") := by
  refine ⟨Resume.mk userID (uuid.String ++ Ext header.Filename) email "" file,
    by simp only [NewResume, hgen], rfl, ?_, ?_, ?_, ?_⟩
  · intro h
    have hlen := congrArg String.length h
    simp only [String.length_append, UUID.String_length] at hlen
    simp at hlen
  · exact ⟨uuid.String.data, by simp [String.data_append]⟩
  · intro pre suf hfn hdot hslash
    have hs : ∀ c ∈ suf, c ≠ '/' ∧ c ≠ '.' := fun c hc =>
      ⟨fun e => hslash (e ▸ hc), fun e => hdot (e ▸ hc)⟩
    simp only [Ext, hfn, extLoop_dot pre suf hs]
  · intro elem hfn hslash hdot
    have hs : ∀ c ∈ elem, c ≠ '/' ∧ c ≠ '.' := fun c hc =>
      ⟨fun e => hslash (e ▸ hc), fun e => hdot (e ▸ hc)⟩
    rcases hfn with hfn | ⟨pre, hfn⟩
    · simp only [Ext, hfn, extLoop_plain elem hs]
    · simp only [Ext, hfn, extLoop_slash pre elem hs]

/-- C1 at a concrete upload: the file `cv.2019/resume.tar.gz` gets the name of the
generated identifier followed by `.gz`. -/
theorem NewResume_name_is_uuid_with_extension_witness :
    NewV4 (.ok sampleUUID) = .ok (sampleUUID.SetVersion 4).SetVariant ∧
    ∃ r, NewResume (.ok sampleUUID) "u1" "u1@auburn.edu" (some [37, 80, 68, 70])
        ⟨"cv.2019/resume.tar.gz"⟩ = .ok r ∧
      r.Name = "6ba7b810-9dad-41d1-80b4-00c04fd430c8.gz" := by
  refine ⟨rfl, ?_⟩
  obtain ⟨r, hr, hname, _⟩ :=
    NewResume_name_is_uuid_with_extension (.ok sampleUUID)
      (sampleUUID.SetVersion 4).SetVariant "u1" "u1@auburn.edu" (some [37, 80, 68, 70])
      ⟨"cv.2019/resume.tar.gz"⟩ rfl
  exact ⟨r, hr, by rw [hname]; decide⟩

/-- The format `GCSPubURL` applied to a bucket and an object name. -/
theorem Sprintf_GCSPubURL (bucket name : String) :
    Sprintf GCSPubURL [bucket, name] =
      "https://storage.googleapis.com/" ++ bucket ++ "/" ++ name := by
  apply String.ext
  simp [Sprintf, GCSPubURL, doPrintf, extraOperands]

/-- The log format applied to an error message. -/
theorem Sprintf_Error (msg : String) : Sprintf "Error: %s" [msg] = "Error: " ++ msg := by
  apply String.ext
  simp [Sprintf, doPrintf, extraOperands]

/-- An `Upload` that does not return nil leaves the receiver and the bucket store
as they were. -/
theorem Upload_unchanged_of_not_ok (gcsBucket : String) (net : WriterFaults)
    (objects : List GCSObject) (r : Resume)
    (h : (Resume.Upload gcsBucket net objects r).outcome ≠ .returned none) :
    (Resume.Upload gcsBucket net objects r).resume = r ∧
      (Resume.Upload gcsBucket net objects r).objects = objects := by
  unfold Resume.Upload at h ⊢
  cases hf : r.file with
  | none => simp
  | some data =>
    cases hc : net.copyErr with
    | some e => simp [Fatalf]
    | none =>
      cases hd : net.closeErr with
      | some e => simp [Fatalf]
      | none => simp [hf, hc, hd] at h

/-- C2: when `Upload` returns no error, the receiver's `URL` is
`"https://storage.googleapis.com/" ++ bucket ++ "/" ++ Name`, whatever characters
the bucket and the name hold; `Name` itself is unchanged and is the key of the
object that was written to the bucket. -/
theorem Upload_sets_public_URL (gcsBucket : String) (net : WriterFaults)
    (objects : List GCSObject) (r : Resume)
    (hok : (Resume.Upload gcsBucket net objects r).outcome = .returned none) :
    (Resume.Upload gcsBucket net objects r).resume.URL =
        "https://storage.googleapis.com/" ++ gcsBucket ++ "/" ++ r.Name ∧
      (Resume.Upload gcsBucket net objects r).resume.Name = r.Name ∧
      ∃ data, r.file = some data ∧
        (Resume.Upload gcsBucket net objects r).objects =
          objects ++ [{ bucket := gcsBucket, name := r.Name, data := data,
                        allUsersReader := true }] := by
  unfold Resume.Upload at hok ⊢
  cases hf : r.file with
  | none => simp [hf] at hok
  | some data =>
    cases hc : net.copyErr with
    | some e => simp [hf, hc, Fatalf] at hok
    | none =>
      cases hd : net.closeErr with
      | some e => simp [hf, hc, hd, Fatalf] at hok
      | none => simp [Sprintf_GCSPubURL]

/-- C2 at a concrete upload whose bucket and name contain `'%'` and `'/'`. -/
theorem Upload_sets_public_URL_witness :
    (Resume.Upload "res%sumes" ⟨none, none⟩ [] { sampleResume with Name := "a/%s%d.pdf" }).outcome =
        .returned none ∧
      (Resume.Upload "res%sumes" ⟨none, none⟩ [] { sampleResume with Name := "a/%s%d.pdf" }).resume.URL =
        "https://storage.googleapis.com/res%sumes/a/%s%d.pdf" :=
  ⟨by decide,
    (Upload_sets_public_URL "res%sumes" ⟨none, none⟩ []
      { sampleResume with Name := "a/%s%d.pdf" } (by decide)).1.trans (by decide)⟩

/-- C3, the code at a failing copy and at a failing close: the error is logged at
severity FATAL and the process exits with status 255; no error is returned to
the caller.  On no input at all does `Upload` return a non-nil error. -/
theorem Upload_io_failure_exits_process :
    Resume.Upload "resumes" ⟨some "broken pipe", none⟩ [] sampleResume =
        { resume := sampleResume, objects := [], fatalLog := ["Error: broken pipe"],
          outcome := .exited 255 } ∧
      Resume.Upload "resumes" ⟨none, some "context deadline exceeded"⟩ [] sampleResume =
        { resume := sampleResume, objects := [],
          fatalLog := ["Error: context deadline exceeded"], outcome := .exited 255 } ∧
      (Resume.Upload "resumes" ⟨some "broken pipe", none⟩ [] sampleResume).outcome ≠
        .returned (some "broken pipe") ∧
      ∀ (gcsBucket : String) (net : WriterFaults) (objects : List GCSObject) (r : Resume)
        (err : Error), (Resume.Upload gcsBucket net objects r).outcome ≠ .returned (some err) := by
  refine ⟨by decide, by decide, by decide, ?_⟩
  intro gcsBucket net objects r err
  unfold Resume.Upload
  cases r.file with
  | none => simp
  | some data =>
    cases net.copyErr with
    | some e => simp [Fatalf]
    | none =>
      cases net.closeErr with
      | some e => simp [Fatalf]
      | none => simp

/-- C8: a `Resume` returned by `NewResume` has an empty `URL`, and after any run of
`Upload` calls none of which returns nil the `URL` is still empty; a call that
does not return nil leaves the `Resume` as it was. -/
theorem URL_empty_until_Upload_succeeds
    (entropy : Except Error UUID) (userID email : String) (file : Option File)
    (header : FileHeader) (r : Resume)
    (hnew : NewResume entropy userID email file header = .ok r) :
    r.URL = "" ∧
      (∀ gcsBucket net objects, (Resume.Upload gcsBucket net objects r).outcome ≠ .returned none →
        (Resume.Upload gcsBucket net objects r).resume.URL = "") ∧
      ∀ gcsBucket nets objects,
        (∀ o ∈ (uploadAll gcsBucket nets objects r).2, o ≠ .returned none) →
        (uploadAll gcsBucket nets objects r).1.URL = "" := by
  have hurl : r.URL = "" := by
    unfold NewResume at hnew
    cases hg : NewV4 entropy with
    | error e => simp [hg] at hnew
    | ok u =>
      simp only [hg, Except.ok.injEq] at hnew
      rw [← hnew]
  refine ⟨hurl, ?_, ?_⟩
  · intro b net objects h
    rw [(Upload_unchanged_of_not_ok b net objects r h).1, hurl]
  · intro b nets
    induction nets with
    | nil => intro objects _; exact hurl
    | cons net rest ih =>
      intro objects hall
      unfold uploadAll at hall ⊢
      cases ho : (Resume.Upload b net objects r).outcome with
      | returned err =>
        simp only [ho] at hall ⊢
        have hne : (Resume.Upload b net objects r).outcome ≠ .returned none := by
          rw [ho]
          exact hall _ (List.mem_cons_self _ _)
        have hsame := Upload_unchanged_of_not_ok b net objects r hne
        rw [hsame.1] at hall ⊢
        exact ih _ (fun o ho' => hall o (List.mem_cons_of_mem _ ho'))
      | exited status =>
        simp only [ho]
        have hne : (Resume.Upload b net objects r).outcome ≠ .returned none := by simp [ho]
        rw [(Upload_unchanged_of_not_ok b net objects r hne).1, hurl]
      | panicked =>
        simp only [ho]
        have hne : (Resume.Upload b net objects r).outcome ≠ .returned none := by simp [ho]
        rw [(Upload_unchanged_of_not_ok b net objects r hne).1, hurl]

/-- C8 at a concrete run: a new resume, then an upload whose copy fails. -/
theorem URL_empty_until_Upload_succeeds_witness :
    ∃ r, NewResume (.ok sampleUUID) "u1" "u1@auburn.edu" (some [37, 80, 68, 70])
        ⟨"resume.pdf"⟩ = .ok r ∧
      (uploadAll "resumes" [⟨some "broken pipe", none⟩] [] r).2 = [.exited 255] ∧
      (uploadAll "resumes" [⟨some "broken pipe", none⟩] [] r).1.URL = "" := by
  refine ⟨_, rfl, by decide, ?_⟩
  exact (URL_empty_until_Upload_succeeds (.ok sampleUUID) "u1" "u1@auburn.edu"
    (some [37, 80, 68, 70]) ⟨"resume.pdf"⟩ _ rfl).2.2 "resumes"
    [⟨some "broken pipe", none⟩] [] (by decide)

theorem matchesFilter_userid (userID : String) (d : Document) :
    matchesFilter (bson.NewDocument [.String "userid" userID]) d = true ↔ d.userid = userID := by
  simp [matchesFilter, bson.NewDocument, matchesElement, Document.field]

theorem matchesFilter_email (email : String) (d : Document) :
    matchesFilter (bson.NewDocument [.String "email" email]) d = true ↔ d.email = email := by
  have h1 : ¬ ("email" = "userid") := by decide
  have h2 : ¬ ("email" = "name") := by decide
  simp [matchesFilter, bson.NewDocument, matchesElement, Document.field, h1, h2]

/-- The update document of `Update`, applied to one document. -/
theorem applyUpdate_Update (now : Nat) (d : Document) (url : String) :
    applyUpdate now d (bson.NewDocument
      [.SubDocumentFromElements "$set" [.String "url" url],
       .SubDocumentFromElements "$currentDate" [.Boolean "lastModified" true]]) =
      { d with url := url, lastModified := some now } := by
  have h1 : ¬ ("url" = "userid") := by decide
  have h2 : ¬ ("url" = "name") := by decide
  have h3 : ¬ ("url" = "email") := by decide
  have h4 : ¬ ("$currentDate" = "$set") := by decide
  simp [bson.NewDocument, applyUpdate, applySet, applyCurrentDate, Document.setString,
    Document.setDate, h1, h2, h3, h4]

theorem updateFirst_of_no_match (filter update : List bson.Element) (now : Nat)
    (coll : Collection) (h : ∀ d ∈ coll, matchesFilter filter d = false) :
    updateFirst filter update now coll = coll := by
  induction coll with
  | nil => rfl
  | cons d rest ih =>
    have hd := h d (List.mem_cons_self _ _)
    simp only [updateFirst, hd, Bool.false_eq_true, if_false]
    rw [ih (fun x hx => h x (List.mem_cons_of_mem _ hx))]

theorem find?_updateFirst (filter update : List bson.Element) (now : Nat)
    (hkeep : ∀ d, matchesFilter filter d = true →
      matchesFilter filter (applyUpdate now d update) = true)
    (coll : Collection) :
    (updateFirst filter update now coll).find? (matchesFilter filter) =
      (coll.find? (matchesFilter filter)).map (fun d => applyUpdate now d update) := by
  induction coll with
  | nil => rfl
  | cons d rest ih =>
    by_cases hd : matchesFilter filter d = true
    · simp [updateFirst, hd, List.find?, hkeep d hd]
    · simp [updateFirst, hd, List.find?, ih]

/-- The first document that satisfies a predicate, with what stands before it. -/
theorem find?_split {p : Document → Bool} (coll : Collection) (h : ∃ d ∈ coll, p d = true) :
    ∃ pre d post, coll = pre ++ d :: post ∧ (∀ x ∈ pre, p x = false) ∧ p d = true ∧
      coll.find? p = some d := by
  induction coll with
  | nil => obtain ⟨d, hd, _⟩ := h; cases hd
  | cons c rest ih =>
    by_cases hc : p c = true
    · exact ⟨[], c, rest, rfl, by simp, hc, by simp [List.find?, hc]⟩
    · have hrest : ∃ d ∈ rest, p d = true := by
        obtain ⟨d, hd, hpd⟩ := h
        rcases List.mem_cons.mp hd with rfl | hd'
        · exact absurd hpd hc
        · exact ⟨d, hd', hpd⟩
      obtain ⟨pre, d, post, hsplit, hpre, hpd, hfind⟩ := ih hrest
      refine ⟨c :: pre, d, post, by simp [hsplit], ?_, hpd, by simp [List.find?, hc, hfind]⟩
      intro x hx
      rcases List.mem_cons.mp hx with rfl | hx'
      · simpa using hc
      · exact hpre x hx'

theorem lookup_eq (fault : Option Error) (coll : Collection) (filter : List bson.Element) :
    (FindOne fault coll filter).Decode zeroResume =
      match fault with
      | some err => .error err
      | none =>
        match coll.find? (matchesFilter filter) with
        | none => .error ErrNoDocuments
        | some d => .ok d.toResume := by
  cases fault with
  | some e => rfl
  | none =>
    simp only [FindOne, DocumentResult.Decode]
    cases coll.find? (matchesFilter filter) <;> rfl

theorem NewResumeWithUserID_eq (fault : Option Error) (coll : Collection) (userID : String) :
    NewResumeWithUserID fault coll userID =
      match fault with
      | some err => .error err
      | none =>
        match coll.find? (matchesFilter (bson.NewDocument [.String "userid" userID])) with
        | none => .error ErrNoDocuments
        | some d => .ok d.toResume := by
  simp only [NewResumeWithUserID, lookup_eq]
  cases fault with
  | some e => rfl
  | none =>
    cases coll.find? (matchesFilter (bson.NewDocument [.String "userid" userID])) <;> rfl

theorem NewResumeWithEmail_eq (fault : Option Error) (coll : Collection) (email : String) :
    NewResumeWithEmail fault coll email =
      match fault with
      | some err => .error err
      | none =>
        match coll.find? (matchesFilter (bson.NewDocument [.String "email" email])) with
        | none => .error ErrNoDocuments
        | some d => .ok d.toResume := by
  simp only [NewResumeWithEmail, lookup_eq]
  cases fault with
  | some e => rfl
  | none =>
    cases coll.find? (matchesFilter (bson.NewDocument [.String "email" email])) <;> rfl

theorem Update_eq (fault : Option Error) (now : Nat) (coll : Collection) (r : Resume) :
    Resume.Update fault now coll r =
      match fault with
      | some err => (coll, some err)
      | none =>
        (updateFirst (bson.NewDocument [.String "userid" r.UserID])
          (bson.NewDocument
            [.SubDocumentFromElements "$set" [.String "url" r.URL],
             .SubDocumentFromElements "$currentDate" [.Boolean "lastModified" true]])
          now coll, none) := by
  cases fault <;> rfl

/-- C4 as stated fails on the empty collection: `Update` returns nil, and the
lookup by the same user id that follows returns `ErrNoDocuments` and no record. -/
theorem Update_then_lookup_counterexample :
    (Resume.Update none 7 [] { sampleResume with URL := "http://x/r1" }).2 = none ∧
      NewResumeWithUserID none (Resume.Update none 7 [] { sampleResume with URL := "http://x/r1" }).1
        "u1" = .error ErrNoDocuments ∧
      ¬ ∀ (now : Nat) (coll : Collection) (r : Resume),
          (Resume.Update none now coll r).2 = none →
          ∃ found, NewResumeWithUserID none (Resume.Update none now coll r).1 r.UserID = .ok found ∧
            found.URL = r.URL := by
  refine ⟨by decide, rfl, ?_⟩
  intro h
  obtain ⟨found, hfound, _⟩ := h 7 [] { sampleResume with URL := "http://x/r1" } (by decide)
  have hnot : NewResumeWithUserID none
      (Resume.Update none 7 [] { sampleResume with URL := "http://x/r1" }).1 "u1" =
        .error ErrNoDocuments := rfl
  rw [show ({ sampleResume with URL := "http://x/r1" } : Resume).UserID = "u1" from rfl,
    hnot] at hfound
  cases hfound

/-- C4, amended: when the collection holds a document with the resume's user id and
`Update` returns nil, the lookup by that user id returns a record whose `URL` is
the resume's `URL`; several documents may share the user id. -/
theorem Update_then_lookup_roundtrip (fault : Option Error) (now : Nat) (coll : Collection)
    (r : Resume) (hex : ∃ d ∈ coll, d.userid = r.UserID)
    (hok : (Resume.Update fault now coll r).2 = none) :
    ∃ found, NewResumeWithUserID none (Resume.Update fault now coll r).1 r.UserID = .ok found ∧
      found.URL = r.URL ∧ found.UserID = r.UserID := by
  cases fault with
  | some e => simp [Update_eq] at hok
  | none =>
    have hex' : ∃ d ∈ coll,
        matchesFilter (bson.NewDocument [.String "userid" r.UserID]) d = true := by
      obtain ⟨d, hd, hu⟩ := hex
      exact ⟨d, hd, (matchesFilter_userid _ _).mpr hu⟩
    obtain ⟨pre, d, post, _, _, hd, hfind⟩ := find?_split coll hex'
    have hkeep : ∀ d, matchesFilter (bson.NewDocument [.String "userid" r.UserID]) d = true →
        matchesFilter (bson.NewDocument [.String "userid" r.UserID])
          (applyUpdate now d (bson.NewDocument
            [.SubDocumentFromElements "$set" [.String "url" r.URL],
             .SubDocumentFromElements "$currentDate" [.Boolean "lastModified" true]])) = true := by
      intro d hd
      rw [applyUpdate_Update]
      exact (matchesFilter_userid _ _).mpr ((matchesFilter_userid _ _).mp hd)
    rw [NewResumeWithUserID_eq, Update_eq]
    simp only [find?_updateFirst _ _ _ hkeep, hfind, Option.map_some', applyUpdate_Update]
    exact ⟨_, rfl, rfl, (matchesFilter_userid _ _).mp hd⟩

/-- C4, amended, on a collection where two documents have the user id `u1`. -/
theorem Update_then_lookup_roundtrip_witness :
    (∃ d ∈ sampleCollection, d.userid = "u1") ∧
      (Resume.Update none 7 sampleCollection { sampleResume with URL := "http://x/r1" }).2 = none ∧
      ∃ found, NewResumeWithUserID none
          (Resume.Update none 7 sampleCollection { sampleResume with URL := "http://x/r1" }).1
          "u1" = .ok found ∧ found.URL = "http://x/r1" := by
  have hex : ∃ d ∈ sampleCollection, d.userid = "u1" := by decide
  have h := Update_then_lookup_roundtrip none 7 sampleCollection
    { sampleResume with URL := "http://x/r1" } hex (by decide)
  obtain ⟨found, hf, hurl, _⟩ := h
  exact ⟨hex, by decide, found, hf, hurl⟩

/-- C6: when no stored document has the resume's user id, `Update` returns nil and
the collection afterwards is the collection before: nothing is inserted and
nothing is modified.  (Under a driver fault the collection is unchanged too.) -/
theorem Update_without_match_is_noop (now : Nat) (coll : Collection) (r : Resume)
    (hno : ∀ d ∈ coll, d.userid ≠ r.UserID) :
    Resume.Update none now coll r = (coll, none) ∧
      ∀ fault, (Resume.Update fault now coll r).1 = coll := by
  have hupd : ∀ upd, updateFirst (bson.NewDocument [.String "userid" r.UserID]) upd now coll =
      coll := by
    intro upd
    apply updateFirst_of_no_match
    intro d hd
    have := hno d hd
    cases hm : matchesFilter (bson.NewDocument [.String "userid" r.UserID]) d with
    | false => rfl
    | true => exact absurd ((matchesFilter_userid _ _).mp hm) this
  refine ⟨by rw [Update_eq]; simp only [hupd], ?_⟩
  intro fault
  cases fault with
  | some e => rfl
  | none => rw [Update_eq]; simp only [hupd]

/-- C6 on a collection that has no document of user `u9`. -/
theorem Update_without_match_is_noop_witness :
    (∀ d ∈ sampleCollection, d.userid ≠ "u9") ∧
      Resume.Update none 7 sampleCollection { sampleResume with UserID := "u9", URL := "http://x/r9" } =
        (sampleCollection, none) :=
  ⟨by decide,
    (Update_without_match_is_noop 7 sampleCollection
      { sampleResume with UserID := "u9", URL := "http://x/r9" } (by decide)).1⟩

/-- C7: on any collection, a lookup by a user id (by an email) that no stored
document has returns the error `ErrNoDocuments` and no `Resume`; when some
document has it, the lookup returns nil error and the record of the first such
document in the collection. -/
theorem lookup_not_found_or_first_match (coll : Collection) :
    (∀ userID, (∀ d ∈ coll, d.userid ≠ userID) →
        NewResumeWithUserID none coll userID = .error ErrNoDocuments) ∧
      (∀ email, (∀ d ∈ coll, d.email ≠ email) →
        NewResumeWithEmail none coll email = .error ErrNoDocuments) ∧
      (∀ userID, (∃ d ∈ coll, d.userid = userID) →
        ∃ pre d post, coll = pre ++ d :: post ∧ (∀ x ∈ pre, x.userid ≠ userID) ∧
          d.userid = userID ∧
          NewResumeWithUserID none coll userID =
            .ok { UserID := d.userid, Name := d.name, Email := d.email, URL := d.url,
                  file := none }) ∧
      (∀ email, (∃ d ∈ coll, d.email = email) →
        ∃ pre d post, coll = pre ++ d :: post ∧ (∀ x ∈ pre, x.email ≠ email) ∧
          d.email = email ∧
          NewResumeWithEmail none coll email =
            .ok { UserID := d.userid, Name := d.name, Email := d.email, URL := d.url,
                  file := none }) := by
  refine ⟨?_, ?_, ?_, ?_⟩
  · intro userID hno
    have hnone : coll.find? (matchesFilter (bson.NewDocument [.String "userid" userID])) =
        none := by
      rw [List.find?_eq_none]
      intro d hd hm
      exact hno d hd ((matchesFilter_userid _ _).mp hm)
    rw [NewResumeWithUserID_eq]
    simp only [hnone]
  · intro email hno
    have hnone : coll.find? (matchesFilter (bson.NewDocument [.String "email" email])) =
        none := by
      rw [List.find?_eq_none]
      intro d hd hm
      exact hno d hd ((matchesFilter_email _ _).mp hm)
    rw [NewResumeWithEmail_eq]
    simp only [hnone]
  · intro userID hex
    have hex' : ∃ d ∈ coll,
        matchesFilter (bson.NewDocument [.String "userid" userID]) d = true := by
      obtain ⟨d, hd, hu⟩ := hex
      exact ⟨d, hd, (matchesFilter_userid _ _).mpr hu⟩
    obtain ⟨pre, d, post, hsplit, hpre, hd, hfind⟩ := find?_split coll hex'
    refine ⟨pre, d, post, hsplit, ?_, (matchesFilter_userid _ _).mp hd, ?_⟩
    · intro x hx hu
      have := hpre x hx
      rw [(matchesFilter_userid _ _).mpr hu] at this
      cases this
    · rw [NewResumeWithUserID_eq]
      simp only [hfind]
      rfl
  · intro email hex
    have hex' : ∃ d ∈ coll,
        matchesFilter (bson.NewDocument [.String "email" email]) d = true := by
      obtain ⟨d, hd, hu⟩ := hex
      exact ⟨d, hd, (matchesFilter_email _ _).mpr hu⟩
    obtain ⟨pre, d, post, hsplit, hpre, hd, hfind⟩ := find?_split coll hex'
    refine ⟨pre, d, post, hsplit, ?_, (matchesFilter_email _ _).mp hd, ?_⟩
    · intro x hx hu
      have := hpre x hx
      rw [(matchesFilter_email _ _).mpr hu] at this
      cases this
    · rw [NewResumeWithEmail_eq]
      simp only [hfind]
      rfl

/-- C7 on the sample collection: `nonexistent` is not found, and `u1`, which two
documents have, gives the record of the first of the two. -/
theorem lookup_not_found_or_first_match_witness :
    NewResumeWithUserID none sampleCollection "nonexistent" = .error ErrNoDocuments ∧
      NewResumeWithEmail none sampleCollection "nobody@auburn.edu" = .error ErrNoDocuments ∧
      NewResumeWithUserID none sampleCollection "u1" =
        .ok { UserID := "u1", Name := "b.pdf", Email := "u1@auburn.edu", URL := "",
              file := none } :=
  ⟨(lookup_not_found_or_first_match sampleCollection).1 "nonexistent" (by decide),
    (lookup_not_found_or_first_match sampleCollection).2.1 "nobody@auburn.edu" (by decide),
    rfl⟩

theorem collectResumes_eq (cur : List Document) :
    ∀ (resumes : List Resume) (r : Resume), r.file = none →
      collectResumes cur resumes r = .ok (resumes ++ cur.map Document.toResume) := by
  induction cur with
  | nil => intro resumes r _; simp [collectResumes]
  | cons doc rest ih =>
    intro resumes r hr
    simp only [collectResumes, DecodeBytes, bson.Unmarshal]
    rw [ih _ (Resume.mk doc.userid doc.name doc.email doc.url r.file) hr]
    simp [Document.toResume, hr]

theorem getAllResumes_eq (coll : Collection) :
    getAllResumes none coll = .ok (coll.map Document.toResume) := by
  simp only [getAllResumes, Find]
  rw [collectResumes_eq coll [] zeroResume rfl]
  rfl

theorem Save_eq (fault : Option Error) (coll : Collection) (r : Resume) :
    Resume.Save fault coll r =
      match fault with
      | some err => (coll, some err)
      | none =>
        (coll ++ [{ userid := r.UserID, name := r.Name, email := r.Email, url := r.URL,
                    lastModified := none }], none) := by
  cases fault <;> rfl

theorem saveAll_eq (calls : List (Option Error × Resume)) :
    ∀ coll : Collection,
      (saveAll calls coll).2 = (calls.filter (fun c => c.1.isNone)).map (fun c => c.2) ∧
      (saveAll calls coll).1.map Document.toResume =
        coll.map Document.toResume ++
          (saveAll calls coll).2.map (fun r => { r with file := none }) := by
  induction calls with
  | nil => intro coll; simp [saveAll]
  | cons c rest ih =>
    intro coll
    obtain ⟨fault, r⟩ := c
    cases fault with
    | some e =>
      have := ih coll
      simpa [saveAll, Save_eq] using this
    | none =>
      have := ih (coll ++ [Document.mk r.UserID r.Name r.Email r.URL none])
      simp only [saveAll, Save_eq]
      refine ⟨by simp [this.1], ?_⟩
      rw [this.2]
      simp [Document.toResume]

/-- C5: starting from the empty collection, after any sequence of `Save` calls
`getAllResumes` returns one `Resume` per call that returned nil, carrying the
`UserID`, `Name`, `Email` and `URL` that was saved (so the result is a
permutation of the saved resumes, and its length is the number of successful
saves); two saves with the same `UserID` give two records. -/
theorem getAllResumes_returns_saved (calls : List (Option Error × Resume)) :
    ∃ rs, getAllResumes none (saveAll calls []).1 = .ok rs ∧
      rs.length = (saveAll calls []).2.length ∧
      (rs.map Resume.stored).Perm ((saveAll calls []).2.map Resume.stored) ∧
      rs.map Resume.stored = (saveAll calls []).2.map Resume.stored ∧
      (saveAll calls []).2 = (calls.filter (fun c => c.1.isNone)).map (fun c => c.2) ∧
      ∀ r₁ r₂ : Resume, r₁.UserID = r₂.UserID →
        ∃ both, getAllResumes none (Resume.Save none (Resume.Save none [] r₁).1 r₂).1 = .ok both ∧
          both.length = 2 := by
  have h := saveAll_eq calls []
  have hmap : ((saveAll calls []).1.map Document.toResume).map Resume.stored =
      (saveAll calls []).2.map Resume.stored := by
    rw [h.2]
    simp [Resume.stored, Function.comp_def]
  refine ⟨(saveAll calls []).1.map Document.toResume, getAllResumes_eq _, ?_, ?_, hmap, h.1, ?_⟩
  · rw [h.2]; simp
  · rw [hmap]
  · intro r₁ r₂ _
    exact ⟨_, getAllResumes_eq _, by simp [Save_eq]⟩

/-- C5 on three calls: two saves of the same user go through, one save fails; the
listing has the two saved resumes, in order. -/
theorem getAllResumes_returns_saved_witness :
    ∃ rs, getAllResumes none
        (saveAll [(none, sampleResume), (some "server selection timeout", sampleResume),
          (none, { sampleResume with Name := "second.pdf" })] []).1 = .ok rs ∧
      rs.length = 2 ∧
      rs.map Resume.stored =
        [("u1", "6ba7b810-9dad-41d1-80b4-00c04fd430c8.pdf", "u1@auburn.edu", ""),
         ("u1", "second.pdf", "u1@auburn.edu", "")] := by
  obtain ⟨rs, hrs, hlen, _, hstored, _⟩ := getAllResumes_returns_saved
    [(none, sampleResume), (some "server selection timeout", sampleResume),
      (none, { sampleResume with Name := "second.pdf" })]
  exact ⟨rs, hrs, hlen.trans (by decide), hstored.trans (by decide)⟩

/-- C9: the insight of a `Resume` has its `UserID`, `Name` and `URL`; the call leaves
the `Resume` as it was; and the insight is the same whatever `Email` and `file`
the `Resume` carries. -/
theorem NewResumeInsightFromResume_is_projection (r : Resume) :
    (NewResumeInsightFromResume r).1.UserID = r.UserID ∧
      (NewResumeInsightFromResume r).1.Name = r.Name ∧
      (NewResumeInsightFromResume r).1.URL = r.URL ∧
      (NewResumeInsightFromResume r).2 = r ∧
      ∀ (email : String) (file : Option File),
        (NewResumeInsightFromResume { r with Email := email, file := file }).1 =
          (NewResumeInsightFromResume r).1 :=
  ⟨rfl, rfl, rfl, rfl, fun _ _ => rfl⟩

/-- C9 on the sample resume, and on the same resume with another `Email` and no
file. -/
theorem NewResumeInsightFromResume_is_projection_witness :
    (NewResumeInsightFromResume sampleResume).1 =
        { UserID := "u1", Name := "6ba7b810-9dad-41d1-80b4-00c04fd430c8.pdf", URL := "" } ∧
      (NewResumeInsightFromResume { sampleResume with Email := "other@auburn.edu", file := none }).1 =
        (NewResumeInsightFromResume sampleResume).1 :=
  ⟨by decide,
    (NewResumeInsightFromResume_is_projection sampleResume).2.2.2.2 "other@auburn.edu" none⟩

/-- The JSON object of an insight, field by field. -/
theorem encodeStruct_insight (ri : ResumeInsight) :
    ri.MarshalJSON =
      (if ri.UserID = "" then [] else [("user_id", ri.UserID)]) ++
      (if ri.Name = "" then [] else [("name", ri.Name)]) ++
      (if ri.URL = "" then [] else [("url", ri.URL)]) := by
  have hlen : ∀ s : String, (s.length == 0) = decide (s = "") := by
    intro s
    have : s.length = 0 ↔ s = "" := by
      constructor
      · intro h
        apply String.ext
        exact List.length_eq_zero.mp h
      · intro h; rw [h]; rfl
    by_cases hs : s = ""
    · simp [hs]
    · simp [hs, this]
  simp only [ResumeInsight.MarshalJSON, ResumeInsight.jsonFields, encodeStruct, hlen,
    Bool.true_and]
  by_cases h1 : ri.UserID = "" <;> by_cases h2 : ri.Name = "" <;> by_cases h3 : ri.URL = "" <;>
    simp [h1, h2, h3]

/-- C10: the JSON object of a `ResumeInsight` has the key `user_id`, `name`, `url`
exactly when `UserID`, `Name`, `URL` is a non-empty string, and then with that
string as its value; it has no `email` key; the insight of a `Resume` whose `URL`
is empty has no `url` key; and with all three fields empty the object has no
member and its text is `{}`. -/
theorem ResumeInsight_json_omits_empty (ri : ResumeInsight) :
    (("user_id" ∈ ri.MarshalJSON.map Prod.fst) ↔ ri.UserID ≠ "") ∧
      (("name" ∈ ri.MarshalJSON.map Prod.fst) ↔ ri.Name ≠ "") ∧
      (("url" ∈ ri.MarshalJSON.map Prod.fst) ↔ ri.URL ≠ "") ∧
      (∀ key value, (key, value) ∈ ri.MarshalJSON ↔
        value ≠ "" ∧ ((key = "user_id" ∧ value = ri.UserID) ∨
          (key = "name" ∧ value = ri.Name) ∨ (key = "url" ∧ value = ri.URL))) ∧
      "email" ∉ ri.MarshalJSON.map Prod.fst ∧
      (∀ r : Resume,
        "url" ∉ (NewResumeInsightFromResume { r with URL := "" }).1.MarshalJSON.map Prod.fst) ∧
      (∀ quote : String → String,
        (ResumeInsight.MarshalJSON ⟨"", "", ""⟩).text quote = "\x7b\x7d") := by
  have hkeys : ∀ ri : ResumeInsight, ri.MarshalJSON =
      (if ri.UserID = "" then [] else [("user_id", ri.UserID)]) ++
      (if ri.Name = "" then [] else [("name", ri.Name)]) ++
      (if ri.URL = "" then [] else [("url", ri.URL)]) := encodeStruct_insight
  have k1 : ¬ ("user_id" = "name") := by decide
  have k2 : ¬ ("user_id" = "url") := by decide
  have k3 : ¬ ("name" = "user_id") := by decide
  have k4 : ¬ ("name" = "url") := by decide
  have k5 : ¬ ("url" = "user_id") := by decide
  have k6 : ¬ ("url" = "name") := by decide
  have k7 : ¬ ("email" = "user_id") := by decide
  have k8 : ¬ ("email" = "name") := by decide
  have k9 : ¬ ("email" = "url") := by decide
  refine ⟨?_, ?_, ?_, ?_, ?_, ?_, ?_⟩
  · rw [hkeys]
    by_cases h1 : ri.UserID = "" <;> by_cases h2 : ri.Name = "" <;>
      by_cases h3 : ri.URL = "" <;> simp [h1, h2, h3, k1, k2]
  · rw [hkeys]
    by_cases h1 : ri.UserID = "" <;> by_cases h2 : ri.Name = "" <;>
      by_cases h3 : ri.URL = "" <;> simp [h1, h2, h3, k3, k4]
  · rw [hkeys]
    by_cases h1 : ri.UserID = "" <;> by_cases h2 : ri.Name = "" <;>
      by_cases h3 : ri.URL = "" <;> simp [h1, h2, h3, k5, k6]
  · intro key value
    rw [hkeys]
    by_cases h1 : ri.UserID = "" <;> by_cases h2 : ri.Name = "" <;>
      by_cases h3 : ri.URL = "" <;> simp [h1, h2, h3] <;> aesop
  · rw [hkeys]
    by_cases h1 : ri.UserID = "" <;> by_cases h2 : ri.Name = "" <;>
      by_cases h3 : ri.URL = "" <;> simp [h1, h2, h3, k7, k8, k9]
  · intro r
    rw [hkeys]
    simp only [NewResumeInsightFromResume]
    by_cases h1 : r.UserID = "" <;> by_cases h2 : r.Name = "" <;> simp [h1, h2, k5, k6]
  · intro quote
    rfl

/-- C10 on the sample resume, whose `URL` is empty: the object has the members
`user_id` and `name` and no `url` key. -/
theorem ResumeInsight_json_omits_empty_witness :
    (NewResumeInsightFromResume sampleResume).1.MarshalJSON =
        [("user_id", "u1"), ("name", "6ba7b810-9dad-41d1-80b4-00c04fd430c8.pdf")] ∧
      "url" ∉ (NewResumeInsightFromResume sampleResume).1.MarshalJSON.map Prod.fst :=
  ⟨by decide,
    fun h => ((ResumeInsight_json_omits_empty
      (NewResumeInsightFromResume sampleResume).1).2.2.1.mp h) rfl⟩

end ResumeServer
